import Mathlib

/-!
Verification of the catalog walker and dual-format tree renderers of
`pg_schema.py`.

The database is modelled as pre-fetched row lists: the source drains every
sibling-group cursor into a Python list before rendering, so each relation is
embedded as a record carrying the rows the catalog source would return for it
(`cols`, `idxs`, `fko`, `fki`, `trgs`), plus the result of the
`get_rel_oid` lookup (`reloid : Option Nat`, `none` when the relation has
vanished).  The ASCII renderer is embedded as a function returning the list of
printed lines; the JSON renderer is embedded in two layers exactly as in the
source: `print_schema_tree_json` becomes a producer of `JsonStream`
method-call events, and `JsonStream` itself becomes a state machine consuming
those events and producing the output string.
-/

/- ───────── ASCII helpers (`_branch`, `_child_prefix`) ───────── -/

def _branch (pfx : String) (isLast : Bool) : String :=
  pfx ++ (if isLast then "└─ " else "├─ ")

/-- Embedding of the source helper `_child_prefix`. -/
def _childPfx (pfx : String) (isLast : Bool) : String :=
  pfx ++ (if isLast then "   " else "│  ")

/- ───────── Whitespace normalization: `" ".join(s.split())` ───────── -/

/-- Python whitespace (`str.split` with no arguments splits on runs of these;
Unicode whitespace is modelled over its ASCII subset, which covers the
tabs/newlines/spaces the spec names). -/
def isPyWs (c : Char) : Bool :=
  c == ' ' || c == '\t' || c == '\n' || c == '\r' || c == '\x0b' || c == '\x0c'

/-- Accumulator-passing core of Python `str.split()`: cut the character list
at whitespace runs, dropping empty pieces. -/
def wordsAux : List Char → List Char → List (List Char)
  | [], acc => if acc.isEmpty then [] else [acc.reverse]
  | c :: cs, acc =>
    if isPyWs c then
      if acc.isEmpty then wordsAux cs [] else acc.reverse :: wordsAux cs []
    else
      wordsAux cs (c :: acc)

/-- Python `" ".join(words)`. -/
def joinWords : List (List Char) → List Char
  | [] => []
  | [w] => w
  | w :: ws => w ++ ' ' :: joinWords ws

/-- Embedding of the idiom `" ".join(s.split())` used on every index,
foreign-key and trigger definition before display. -/
def normalizeWs (s : String) : String :=
  String.mk (joinWords (wordsAux s.data []))

/-- Local check used by `collapsedB`: a whitespace character must be a plain
space and must not be followed by another whitespace character. -/
def wsOkAt (c : Char) (cs : List Char) : Bool :=
  if isPyWs c then
    (c == ' ') && (match cs with | [] => true | d :: _ => !isPyWs d)
  else
    true

/-- Decidable statement of "all whitespace runs are collapsed to single
spaces": every whitespace character is a space and no two whitespace
characters are adjacent. -/
def collapsedB : List Char → Bool
  | [] => true
  | c :: cs => wsOkAt c cs && collapsedB cs

/- ───────── Default-expression function-name extraction ───────── -/

/-- Start characters of the regex ident `[a-z_]` under `re.IGNORECASE`
(modelled over ASCII). -/
def isIdentStart (c : Char) : Bool :=
  (('a' ≤ c) && (c ≤ 'z')) || (('A' ≤ c) && (c ≤ 'Z')) || c == '_'

/-- Continuation characters of the regex class `[\w$]` (modelled over
ASCII). -/
def isIdentCont (c : Char) : Bool :=
  isIdentStart c || (('0' ≤ c) && (c ≤ '9')) || c == '$'

/-- Greedily take identifier-continuation characters. -/
def takeIdentCont : List Char → List Char × List Char
  | [] => ([], [])
  | c :: cs =>
    if isIdentCont c then
      ((takeIdentCont cs).1.cons c, (takeIdentCont cs).2)
    else
      ([], c :: cs)

/-- Match one regex identifier `[a-z_][\w$]*` (greedy, case-insensitive). -/
def parseIdent : List Char → Option (List Char × List Char)
  | [] => none
  | c :: cs =>
    if isIdentStart c then
      some ((takeIdentCont cs).1.cons c, (takeIdentCont cs).2)
    else
      none

/-- Skip the regex `\s*`. -/
def skipWsL : List Char → List Char
  | [] => []
  | c :: cs => if isPyWs c then skipWsL cs else c :: cs

def headIsParen : List Char → Bool
  | '(' :: _ => true
  | _ => false

/-- Embedding of `FUNC_NAME_RE.match`: the anchored pattern
`\s*(?:([a-z_][\w$]*)\.)?(?P<func>[a-z_][\w$]*)\s*\(` returning the `func`
group.  Because an identifier character can never be a dot, a space or an
opening parenthesis, the regex engine's greedy match with backtracking is
equivalent to this single greedy pass (a shorter identifier prefix is always
followed by another identifier character, which fails both the `\.` and the
`\s*\(` continuations). -/
def funcNameMatch (s : List Char) : Option (List Char) :=
  match parseIdent (skipWsL s) with
  | none => none
  | some (id1, rest) =>
    match rest with
    | '.' :: rest2 =>
      (match parseIdent rest2 with
       | some (id2, rest3) =>
         if headIsParen (skipWsL rest3) then some id2 else none
       | none => none)
    | _ => if headIsParen (skipWsL rest) then some id1 else none

/-- Embedding of `extract_default_func_name`: `None` and the empty string are
falsy in Python (`if not default_expr: return None`); otherwise the regex is
matched and the `func` group returned, `None` when there is no match. -/
def extract_default_func_name : Option String → Option String
  | none => none
  | some s => if s = "" then none else (funcNameMatch s.data).map String.mk

/- ───────── Entity model (rows as fetched from the catalog) ───────── -/

structure ColumnRow where
  name : String
  dtype : String
  notnull : Bool
  defaultExpr : Option String
deriving DecidableEq

structure IndexRow where
  name : String
  ispk : Bool
  isuniq : Bool
  isinvalid : Bool
  defn : String
deriving DecidableEq

structure FkRow where
  name : String
  defn : String
  table : String
deriving DecidableEq

structure TriggerRow where
  name : String
  defn : String
  funcName : Option String
deriving DecidableEq

structure FuncRow where
  name : String
  args : String
  rettype : String
deriving DecidableEq

/-- One relation as seen by the walker: the `(relname, relkind)` pair from
`iter_tables`, the `get_rel_oid` result, and the per-group row lists the
per-relation queries would return. -/
structure RelationData where
  name : String
  relkind : String
  reloid : Option Nat
  cols : List ColumnRow
  idxs : List IndexRow
  fko : List FkRow
  fki : List FkRow
  trgs : List TriggerRow
deriving DecidableEq

structure SchemaData where
  name : String
  funcs : List FuncRow
  tables : List RelationData
deriving DecidableEq

/-- The inclusion-policy flags the two renderers consult (the view/matview/
foreign-table and schema-filter flags only shape which rows `iter_tables`
yields and are absorbed into the modelled row lists). -/
structure Args where
  include_funcs : Bool
  include_indexes : Bool
  include_fkeys : Bool
  include_triggers : Bool
deriving DecidableEq

/-- Embedding of the `RELKIND_LABEL` dict together with the
`.get(relkind, "[rel]")` default used at both call sites. -/
def RELKIND_LABEL (k : String) : String :=
  if k = "r" then "[table]"
  else if k = "p" then "[part_table]"
  else if k = "v" then "[view]"
  else if k = "m" then "[matview]"
  else if k = "f" then "[foreign]"
  else "[rel]"

/- ───────── ASCII renderer ───────── -/

/-- Python truthiness of an `Optional[str]`. -/
def optTruthy : Option String → Bool
  | none => false
  | some s => !(s == "")

/-- The `parts` list built for one column line. -/
def asciiColumnParts (c : ColumnRow) : List String :=
  [c.name ++ ": " ++ c.dtype]
  ++ (if c.notnull then ["NOT NULL"] else [])
  ++ (match c.defaultExpr with
      | some d =>
        if d = "" then []
        else
          ("DEFAULT " ++ d)
          :: (match extract_default_func_name (some d) with
              | some fn => if fn = "" then [] else ["[func: " ++ fn ++ "]"]
              | none => [])
      | none => [])

/-- `" ".join(parts)` for one column. -/
def asciiColumnText (c : ColumnRow) : String :=
  String.intercalate " " (asciiColumnParts c)

/-- Index tag list: `PK` when primary, `UNIQ` when unique and not primary,
`INVALID` when invalid. -/
def indexTags (ispk isuniq isinvalid : Bool) : List String :=
  (if ispk then ["PK"] else [])
  ++ (if isuniq && !ispk then ["UNIQ"] else [])
  ++ (if isinvalid then ["INVALID"] else [])

/-- The bracketed suffix appended to an index line, empty when no tag
applies. -/
def indexTagStr (ispk isuniq isinvalid : Bool) : String :=
  if (indexTags ispk isuniq isinvalid).isEmpty then ""
  else " [" ++ String.intercalate "|" (indexTags ispk isuniq isinvalid) ++ "]"

def asciiIndexLine (gp : String) (isLast : Bool) (r : IndexRow) : String :=
  _branch gp isLast ++ r.name ++ indexTagStr r.ispk r.isuniq r.isinvalid
  ++ " :: " ++ normalizeWs r.defn

/-- The ` [func: ...]` suffix of a trigger line (`if func_name` truthiness). -/
def triggerFuncTag : Option String → String
  | none => ""
  | some f => if f = "" then "" else " [func: " ++ f ++ "]"

def asciiTriggerLine (gp : String) (isLast : Bool) (r : TriggerRow) : String :=
  _branch gp isLast ++ r.name ++ triggerFuncTag r.funcName
  ++ " :: " ++ normalizeWs r.defn

/-- Renders `for i, row in enumerate(rows): print(f(i, row))`. -/
def enumLines {α : Type} (f : Nat → α → String) : Nat → List α → List String
  | _, [] => []
  | i, a :: rest => f i a :: enumLines f (i + 1) rest

/-- Renders an enumerated loop whose body prints a block of lines. -/
def enumBlocks {α : Type} (f : Nat → α → List String) : Nat → List α → List String
  | _, [] => []
  | i, a :: rest => f i a ++ enumBlocks f (i + 1) rest

/-- Embedding of the `foreign_keys` branch of the ASCII group loop.  The
source computes the last-flag of the `outgoing` header as
`False if fki else True` and prints the `incoming` header (last-flag `True`)
in both the empty and the non-empty case. -/
def asciiFkLines (gp : String) (fko fki : List FkRow) : List String :=
  (_branch gp fki.isEmpty ++ "outgoing")
  :: ((if fko.isEmpty then
        [_branch (_childPfx gp fki.isEmpty) true ++ "(none)"]
      else
        enumLines (fun i r =>
          _branch (_childPfx gp fki.isEmpty) (i == fko.length - 1)
          ++ r.name ++ " -> " ++ r.table ++ " :: " ++ normalizeWs r.defn) 0 fko)
      ++ (_branch gp true ++ "incoming")
      :: (if fki.isEmpty then
            [_branch (_childPfx gp true) true ++ "(none)"]
          else
            enumLines (fun i r =>
              _branch (_childPfx gp true) (i == fki.length - 1)
              ++ r.name ++ " <- " ++ r.table ++ " :: " ++ normalizeWs r.defn) 0 fki))

/-- One entry of the `enabled` list built per relation. -/
inductive GroupData : Type
  | indexes (rows : List IndexRow)
  | fkeys (fko fki : List FkRow)
  | triggers (rows : List TriggerRow)
deriving DecidableEq

def GroupData.gname : GroupData → String
  | .indexes _ => "indexes"
  | .fkeys _ _ => "foreign_keys"
  | .triggers _ => "triggers"

/-- The `enabled` list: optional groups in the fixed source order
indexes → foreign_keys → triggers. -/
def enabledGroups (args : Args) (rel : RelationData) : List GroupData :=
  (if args.include_indexes then [GroupData.indexes rel.idxs] else [])
  ++ (if args.include_fkeys then [GroupData.fkeys rel.fko rel.fki] else [])
  ++ (if args.include_triggers then [GroupData.triggers rel.trgs] else [])

/-- The lines printed for one optional group (header plus leaves).  An empty
trigger list prints a `(none)` leaf; an empty index list prints nothing under
the header, as in the source. -/
def asciiGroupBlock (lvl1 : String) (isLastGroup : Bool) (g : GroupData) : List String :=
  (_branch lvl1 isLastGroup ++ g.gname)
  :: (match g with
      | .indexes rows =>
        enumLines (fun i r =>
          asciiIndexLine (_childPfx lvl1 isLastGroup) (i == rows.length - 1) r) 0 rows
      | .fkeys fko fki => asciiFkLines (_childPfx lvl1 isLastGroup) fko fki
      | .triggers rows =>
        if rows.isEmpty then
          [_branch (_childPfx lvl1 isLastGroup) true ++ "(none)"]
        else
          enumLines (fun i r =>
            asciiTriggerLine (_childPfx lvl1 isLastGroup) (i == rows.length - 1) r) 0 rows)

/-- The last-flag the source computes for the `columns` header:
`not more_groups and not cols`. -/
def asciiColsLast (args : Args) (cols : List ColumnRow) : Bool :=
  !(args.include_indexes || args.include_fkeys || args.include_triggers)
  && cols.isEmpty

/-- Everything printed below a relation header: the `(rel not found)` leaf
when `get_rel_oid` returned no row, otherwise the `columns` group followed by
the enabled optional groups. -/
def asciiRelChildren (lvl1 : String) (args : Args) (rel : RelationData) : List String :=
  match rel.reloid with
  | none => [_branch lvl1 true ++ "(rel not found)"]
  | some _ =>
    (_branch lvl1 (asciiColsLast args rel.cols) ++ "columns")
    :: (enumLines (fun i c =>
          _branch (_childPfx lvl1 (asciiColsLast args rel.cols))
            (i == rel.cols.length - 1) ++ asciiColumnText c) 0 rel.cols
        ++ enumBlocks (fun i g =>
            asciiGroupBlock lvl1 (i == (enabledGroups args rel).length - 1) g)
            0 (enabledGroups args rel))

/-- Header line plus children for one relation of the top-level loop. -/
def asciiTableBlock (args : Args) (isLastTable : Bool) (rel : RelationData) : List String :=
  (_branch "" isLastTable ++ rel.name ++ " " ++ RELKIND_LABEL rel.relkind)
  :: asciiRelChildren (_childPfx "" isLastTable) args rel

/-- `top_children` of the ASCII renderer. -/
def asciiTopChildren (args : Args) (s : SchemaData) : Nat :=
  s.tables.length + (if args.include_funcs then 1 else 0)

/-- The last-flag of the `functions` header:
`(idx_top == top_children - 1) if table_count == 0 else False` with
`idx_top = 0`. -/
def asciiFuncsLast (args : Args) (s : SchemaData) : Bool :=
  if s.tables.length == 0 then (0 == asciiTopChildren args s - 1) else false

/-- Embedding of `print_schema_tree_ascii` as the list of printed lines for
one schema. -/
def print_schema_tree_ascii (args : Args) (s : SchemaData) : List String :=
  s.name
  :: ((if args.include_funcs then
        (_branch "" (asciiFuncsLast args s) ++ "functions")
        :: enumLines (fun i f =>
            _branch (_childPfx "" (asciiFuncsLast args s)) (i == s.funcs.length - 1)
            ++ f.name ++ "(" ++ f.args ++ ") -> " ++ f.rettype) 0 s.funcs
      else [])
      ++ enumBlocks (fun i rel =>
          asciiTableBlock args
            ((if args.include_funcs then 1 else 0) + i == asciiTopChildren args s - 1)
            rel) 0 s.tables)

/- ───────── JSON values and `json.dumps` ───────── -/

/-- Primitive JSON values appearing in the dicts the source passes to
`json.dumps` (every dict it streams is flat). -/
inductive JPrim : Type
  | str (s : String)
  | bool (b : Bool)
  | null
deriving DecidableEq

/-- A value handed to a `JsonStream` method: a primitive or a flat dict. -/
inductive JValue : Type
  | prim (p : JPrim)
  | obj (l : List (String × JPrim))
deriving DecidableEq

def hexDigit (n : Nat) : Char :=
  if n < 10 then Char.ofNat (48 + n) else Char.ofNat (87 + n)

/-- JSON string-escaping of one character, as `json.dumps` with
`ensure_ascii=False` performs it. -/
def escChar (c : Char) : String :=
  if c = '"' then "\\\""
  else if c = '\\' then "\\\\"
  else if c = '\n' then "\\n"
  else if c = '\t' then "\\t"
  else if c = '\r' then "\\r"
  else if c = '\x08' then "\\b"
  else if c = '\x0c' then "\\f"
  else if c.toNat < 32 then
    "\\u00" ++ String.mk [hexDigit (c.toNat / 16), hexDigit (c.toNat % 16)]
  else String.mk [c]

/-- `json.dumps` of a string. -/
def jstr (s : String) : String :=
  "\"" ++ String.join (s.data.map escChar) ++ "\""

def jprimDump : JPrim → String
  | .str s => jstr s
  | .bool b => if b then "true" else "false"
  | .null => "null"

/-- `json.dumps(v, ensure_ascii=False)` with the default separators
`(", ", ": ")`, as called inside the `JsonStream` methods. -/
def jdump : JValue → String
  | .prim p => jprimDump p
  | .obj l =>
    "\x7b"
    ++ String.intercalate ", " (l.map (fun p => jstr p.1 ++ ": " ++ jprimDump p.2))
    ++ "\x7d"

/- ───────── JsonStream: the streaming document writer ───────── -/

/-- One `JsonStream` method call, the structural event alphabet emitted by
`print_schema_tree_json`. -/
inductive JEvent : Type
  | beginObj
  | endObj
  | beginArr
  | endArr
  | key (k : String)
  | value (v : JValue)
  | item (v : JValue)
deriving DecidableEq

/-- State of the `JsonStream` class.  The top of the Python `first_stack`
(its last element) is the head of `firstStack` here. -/
structure JsonStream where
  pretty : Bool
  indent : Nat
  level : Nat
  firstStack : List Bool
  out : String
deriving DecidableEq

def JsonStream.write (st : JsonStream) (s : String) : JsonStream :=
  { st with out := st.out ++ s }

def JsonStream.nl (st : JsonStream) : JsonStream :=
  if st.pretty then st.write "\n" else st

def JsonStream.pad (st : JsonStream) : JsonStream :=
  if st.pretty then st.write (String.mk (List.replicate (st.level * st.indent) ' ')) else st

def JsonStream.begin_obj (st : JsonStream) : JsonStream :=
  let st := st.write "\x7b"
  { st with level := st.level + 1, firstStack := true :: st.firstStack }

def JsonStream.end_obj (st : JsonStream) : JsonStream :=
  let st := { st with level := st.level - 1 }
  let st := (st.nl.pad).write "\x7d"
  { st with firstStack := st.firstStack.tail }

def JsonStream.begin_array (st : JsonStream) : JsonStream :=
  let st := st.write "["
  { st with level := st.level + 1, firstStack := true :: st.firstStack }

def JsonStream.end_array (st : JsonStream) : JsonStream :=
  let st := { st with level := st.level - 1 }
  let st := (st.nl.pad).write "]"
  { st with firstStack := st.firstStack.tail }

/-- `_comma_if_needed`: consume the first-element flag of the innermost open
container, else print a separator. -/
def JsonStream.commaIfNeeded (st : JsonStream) : JsonStream :=
  match st.firstStack with
  | [] => st
  | b :: rest => if b then { st with firstStack := false :: rest } else st.write ","

def JsonStream.keyWrite (st : JsonStream) (k : String) : JsonStream :=
  let st := st.commaIfNeeded.nl.pad
  (st.write (jstr k)).write (if st.pretty then ": " else ":")

def JsonStream.valueWrite (st : JsonStream) (v : JValue) : JsonStream :=
  (st.commaIfNeeded.nl.pad).write (jdump v)

def JsonStream.itemWrite (st : JsonStream) (v : JValue) : JsonStream :=
  (st.commaIfNeeded.nl.pad).write (jdump v)

def JsonStream.step (st : JsonStream) : JEvent → JsonStream
  | .beginObj => st.begin_obj
  | .endObj => st.end_obj
  | .beginArr => st.begin_array
  | .endArr => st.end_array
  | .key k => st.keyWrite k
  | .value v => st.valueWrite v
  | .item v => st.itemWrite v

/-- Feed a sequence of method calls to the stream. -/
def runJson (st : JsonStream) (evs : List JEvent) : JsonStream :=
  evs.foldl JsonStream.step st

/-- `JsonStream(out, pretty=...)` over an empty output sink. -/
def initStream (pretty : Bool) : JsonStream :=
  ⟨pretty, 2, 0, [], ""⟩

/- ───────── print_schema_tree_json as an event producer ───────── -/

/-- The dict streamed for one routine. -/
def jsonFuncItem (f : FuncRow) : JValue :=
  .obj [("name", .str f.name), ("args", .str f.args), ("return_type", .str f.rettype)]

/-- The `entry` dict streamed for one column; `default` is added under
Python truthiness of the expression and `default_func` only when the
extraction produced a (truthy) name. -/
def jsonColumnEntry (c : ColumnRow) : List (String × JPrim) :=
  [("name", .str c.name), ("type", .str c.dtype), ("not_null", .bool c.notnull)]
  ++ (match c.defaultExpr with
      | some d =>
        if d = "" then []
        else
          ("default", JPrim.str d)
          :: (match extract_default_func_name (some d) with
              | some fn => if fn = "" then [] else [("default_func", JPrim.str fn)]
              | none => [])
      | none => [])

def jsonIndexItem (r : IndexRow) : JValue :=
  .obj [("name", .str r.name), ("primary", .bool r.ispk), ("unique", .bool r.isuniq),
        ("invalid", .bool r.isinvalid), ("definition", .str (normalizeWs r.defn))]

def jsonFkOutItem (r : FkRow) : JValue :=
  .obj [("name", .str r.name), ("ref_table", .str r.table),
        ("definition", .str (normalizeWs r.defn))]

def jsonFkInItem (r : FkRow) : JValue :=
  .obj [("name", .str r.name), ("src_table", .str r.table),
        ("definition", .str (normalizeWs r.defn))]

def jsonTriggerItem (r : TriggerRow) : JValue :=
  .obj [("name", .str r.name),
        ("function", match r.funcName with | some f => .str f | none => .null),
        ("definition", .str (normalizeWs r.defn))]

/-- The `foreign_keys` section: one object holding the `outgoing` and
`incoming` arrays, both always emitted. -/
def jsonFkEvents (fko fki : List FkRow) : List JEvent :=
  [.key "foreign_keys", .beginObj, .key "outgoing", .beginArr]
  ++ fko.map (fun r => JEvent.item (jsonFkOutItem r))
  ++ [.endArr, .key "incoming", .beginArr]
  ++ fki.map (fun r => JEvent.item (jsonFkInItem r))
  ++ [.endArr, .endObj]

/-- The method calls `print_schema_tree_json` makes for one relation:
name and kind, then either the `error` leaf (when `get_rel_oid` found no row)
or the `columns` array followed by the enabled optional groups. -/
def jsonRelEvents (args : Args) (rel : RelationData) : List JEvent :=
  [.beginObj, .key "name", .value (.prim (.str rel.name)),
   .key "kind", .value (.prim (.str (RELKIND_LABEL rel.relkind)))]
  ++ match rel.reloid with
     | none => [.key "error", .value (.prim (.str "rel not found")), .endObj]
     | some _ =>
       ([.key "columns", .beginArr]
        ++ rel.cols.map (fun c => JEvent.item (.obj (jsonColumnEntry c)))
        ++ [.endArr])
       ++ (if args.include_indexes then
             [.key "indexes", .beginArr]
             ++ rel.idxs.map (fun r => JEvent.item (jsonIndexItem r))
             ++ [.endArr]
           else [])
       ++ (if args.include_fkeys then jsonFkEvents rel.fko rel.fki else [])
       ++ (if args.include_triggers then
             [.key "triggers", .beginArr]
             ++ rel.trgs.map (fun r => JEvent.item (jsonTriggerItem r))
             ++ [.endArr]
           else [])
       ++ [.endObj]

/-- The method calls `print_schema_tree_json` makes for one schema. -/
def jsonSchemaEvents (args : Args) (s : SchemaData) : List JEvent :=
  [.beginObj, .key "name", .value (.prim (.str s.name))]
  ++ (if args.include_funcs then
        [.key "functions", .beginArr]
        ++ s.funcs.map (fun f => JEvent.item (jsonFuncItem f))
        ++ [.endArr]
      else [])
  ++ ([.key "relations", .beginArr]
      ++ (s.tables.map (jsonRelEvents args)).flatten
      ++ [.endArr, .endObj])

/-- The whole-document method calls of the JSON runner:
`\x7b "schemas": [ ... ] \x7d` around the per-schema events. -/
def jsonTopEvents (args : Args) (schemas : List SchemaData) : List JEvent :=
  [.beginObj, .key "schemas", .beginArr]
  ++ (schemas.map (jsonSchemaEvents args)).flatten
  ++ [.endArr, .endObj]

/-- The keys announced by `key` events, in emission order (nested containers
included). -/
def keysOf (evs : List JEvent) : List String :=
  evs.filterMap (fun e => match e with | .key k => some k | _ => none)

def countChar (c : Char) (s : String) : Nat :=
  s.data.count c

/- ───────── Helper lemmas ───────── -/

theorem enumBlocks_append {α : Type} (f : Nat → α → List String) (pre post : List α) :
    ∀ i, enumBlocks f i (pre ++ post)
      = enumBlocks f i pre ++ enumBlocks f (i + pre.length) post := by
  induction pre with
  | nil => intro i; simp [enumBlocks]
  | cons a pre ih =>
    intro i
    have h : i + (a :: pre).length = i + 1 + pre.length := by
      rw [List.length_cons]; omega
    simp only [List.cons_append, enumBlocks, List.append_eq, ih (i + 1),
      List.append_assoc, h]

theorem enumBlocks_split {α : Type} (f : Nat → α → List String) (pre post : List α)
    (x : α) (i : Nat) :
    enumBlocks f i (pre ++ x :: post)
      = enumBlocks f i pre ++ f (i + pre.length) x
        ++ enumBlocks f (i + pre.length + 1) post := by
  rw [enumBlocks_append]
  simp [enumBlocks, List.append_assoc]

theorem filterMapNone {α β : Type} (l : List α) :
    l.filterMap (fun _ => (none : Option β)) = [] := by
  induction l with
  | nil => rfl
  | cons a l ih => simp [List.filterMap_cons, ih]

theorem keysOf_map_item {α : Type} (f : α → JValue) (l : List α) :
    keysOf (l.map (fun x => JEvent.item (f x))) = [] := by
  induction l with
  | nil => rfl
  | cons a l ih => simp [keysOf, List.filterMap_cons, ih]

theorem keysOf_nil : keysOf [] = [] := rfl

theorem keysOf_append (a b : List JEvent) :
    keysOf (a ++ b) = keysOf a ++ keysOf b := by
  simp [keysOf, List.filterMap_append]

theorem keysOf_cons_key (k : String) (l : List JEvent) :
    keysOf (JEvent.key k :: l) = k :: keysOf l := by
  simp [keysOf, List.filterMap_cons]

theorem keysOf_cons_beginObj (l : List JEvent) :
    keysOf (JEvent.beginObj :: l) = keysOf l := by
  simp [keysOf, List.filterMap_cons]

theorem keysOf_cons_endObj (l : List JEvent) :
    keysOf (JEvent.endObj :: l) = keysOf l := by
  simp [keysOf, List.filterMap_cons]

theorem keysOf_cons_beginArr (l : List JEvent) :
    keysOf (JEvent.beginArr :: l) = keysOf l := by
  simp [keysOf, List.filterMap_cons]

theorem keysOf_cons_endArr (l : List JEvent) :
    keysOf (JEvent.endArr :: l) = keysOf l := by
  simp [keysOf, List.filterMap_cons]

theorem keysOf_cons_value (v : JValue) (l : List JEvent) :
    keysOf (JEvent.value v :: l) = keysOf l := by
  simp [keysOf, List.filterMap_cons]

theorem keysOf_cons_item (v : JValue) (l : List JEvent) :
    keysOf (JEvent.item v :: l) = keysOf l := by
  simp [keysOf, List.filterMap_cons]

theorem collapsedB_append_nonws (w r : List Char) (h : ∀ c ∈ w, isPyWs c = false) :
    collapsedB (w ++ r) = collapsedB r := by
  induction w with
  | nil => simp
  | cons c w ih =>
    have hc : isPyWs c = false := h c (by simp)
    have hw : ∀ x ∈ w, isPyWs x = false := fun x hx => h x (by simp [hx])
    simp [collapsedB, wsOkAt, hc, ih hw]

theorem wordsAux_sound : ∀ (cs acc : List Char), (∀ c ∈ acc, isPyWs c = false) →
    ∀ w ∈ wordsAux cs acc, w ≠ [] ∧ ∀ c ∈ w, isPyWs c = false := by
  intro cs
  induction cs with
  | nil =>
    intro acc hacc w hw
    match acc with
    | [] => simp [wordsAux] at hw
    | a :: as =>
      simp [wordsAux] at hw
      subst hw
      refine ⟨by simp, ?_⟩
      intro c hc
      have hca : c ∈ as ∨ c = a := by simpa using hc
      rcases hca with h | h
      · exact hacc c (by simp [h])
      · exact hacc c (by simp [h])
  | cons c cs ih =>
    intro acc hacc w hw
    by_cases hws : isPyWs c = true
    · simp only [wordsAux, hws, if_true] at hw
      by_cases he : acc.isEmpty
      · rw [if_pos he] at hw
        exact ih [] (by simp) w hw
      · rw [if_neg he] at hw
        rcases List.mem_cons.mp hw with h1 | h2
        · subst h1
          have hne : acc ≠ [] := by simpa [List.isEmpty_iff] using he
          refine ⟨by simpa using hne, ?_⟩
          intro x hx
          exact hacc x (List.mem_reverse.mp hx)
        · exact ih [] (by simp) w h2
    · have hws' : isPyWs c = false := by simpa using hws
      simp only [wordsAux, hws', Bool.false_eq_true, if_false] at hw
      refine ih (c :: acc) ?_ w hw
      intro x hx
      rcases List.mem_cons.mp hx with h1 | h2
      · subst h1; exact hws'
      · exact hacc x h2

theorem joinWords_cons_head (c0 : Char) (w : List Char) (ws : List (List Char)) :
    ∃ t, joinWords ((c0 :: w) :: ws) = c0 :: t := by
  cases ws with
  | nil => exact ⟨w, rfl⟩
  | cons w' ws' => exact ⟨w ++ ' ' :: joinWords (w' :: ws'), rfl⟩

theorem collapsedB_joinWords : ∀ ws : List (List Char),
    (∀ w ∈ ws, w ≠ [] ∧ ∀ c ∈ w, isPyWs c = false) →
    collapsedB (joinWords ws) = true := by
  intro ws
  induction ws with
  | nil => intro _; rfl
  | cons w ws ih =>
    intro h
    cases ws with
    | nil =>
      have hw := (h w (by simp)).2
      simpa [joinWords] using collapsedB_append_nonws w [] hw
    | cons w' ws' =>
      have hw := (h w (by simp)).2
      have hrec : collapsedB (joinWords (w' :: ws')) = true :=
        ih (fun x hx => h x (by simp [hx]))
      obtain ⟨hne, hw'⟩ := h w' (by simp)
      obtain ⟨c0, w'', rfl⟩ := List.exists_cons_of_ne_nil hne
      obtain ⟨t, ht⟩ := joinWords_cons_head c0 w'' ws'
      have hc0 : isPyWs c0 = false := hw' c0 (by simp)
      have hstep : joinWords (w :: (c0 :: w'') :: ws')
          = w ++ ' ' :: joinWords ((c0 :: w'') :: ws') := rfl
      rw [hstep, collapsedB_append_nonws _ _ hw, ht]
      have htail : collapsedB (c0 :: t) = true := by rw [← ht]; exact hrec
      have hsp : isPyWs ' ' = true := by decide
      have hok : wsOkAt ' ' (c0 :: t) = true := by
        simp [wsOkAt, hsp, hc0]
      show (wsOkAt ' ' (c0 :: t) && collapsedB (c0 :: t)) = true
      rw [hok, htail]
      rfl

/- ───────── Concrete sample data ───────── -/

/-- All optional branches disabled. -/
def argsNone : Args := ⟨false, false, false, false⟩

/-- Only foreign keys enabled. -/
def argsFk : Args := ⟨false, false, true, false⟩

def colId : ColumnRow := ⟨"id", "integer", true, none⟩

def colEmail : ColumnRow := ⟨"email", "text", false, none⟩

/-- The spec scenario: table `users` with columns `id integer not null` and
`email text`, both default-free. -/
def relUsers : RelationData := ⟨"users", "r", some 1, [colId, colEmail], [], [], [], []⟩

/-- The spec scenario: schema `app` with the single table `users`. -/
def schemaApp : SchemaData := ⟨"app", [], [relUsers]⟩

/-- A relation whose `get_rel_oid` lookup returns no row. -/
def relGone : RelationData := ⟨"ghost", "r", none, [], [], [], [], []⟩

/-- A schema holding two vanished relations, exercising consecutive objects
inside the `relations` array. -/
def schemaTwo : SchemaData := ⟨"s", [], [relGone, relGone]⟩

def fkDemo : FkRow := ⟨"fk_demo", "FOREIGN KEY (a) REFERENCES t(b)", "t"⟩

/-- A resolvable relation with one outgoing foreign key and no incoming
ones. -/
def relOrders : RelationData := ⟨"orders", "r", some 7, [], [], [fkDemo], [], []⟩

/- ───────── Claim theorems ───────── -/

/-- C1: the claim says every container's separator count is element count − 1
(each non-first element, containers included, preceded by exactly one comma).
The code violates it: `key` and `value` both call `_comma_if_needed`, so a
relation object with three key/value pairs is rendered with five commas (one
of them between a colon and its value), and `begin_obj` never consults the
flag, so the two consecutive relation objects inside the `relations` array
are rendered with no separator at all (`\x7d\x7b` adjacency below). -/
theorem C1_separator_violation :
    (runJson (initStream false) (jsonRelEvents argsNone relGone)).out
      = "\x7b\"name\":,\"ghost\",\"kind\":,\"[table]\",\"error\":,\"rel not found\"\x7d" ∧
    countChar ',' (runJson (initStream false) (jsonRelEvents argsNone relGone)).out = 5 ∧
    (runJson (initStream false) (jsonSchemaEvents argsNone schemaTwo)).out
      = "\x7b\"name\":,\"s\",\"relations\":[\x7b\"name\":,\"ghost\",\"kind\":,\"[table]\",\"error\":,\"rel not found\"\x7d\x7b\"name\":,\"ghost\",\"kind\":,\"[table]\",\"error\":,\"rel not found\"\x7d]\x7d" := by
  refine ⟨rfl, rfl, rfl⟩

/-- C2: the claim says every non-empty sibling group has exactly one `└─ `
glyph, on its final element.  The code violates it twice: with no optional
groups enabled and a non-empty column list, the sole `columns` sibling of the
relation is printed with `├─ ` (flag `not more_groups and not cols`), so its
group carries zero last-glyphs; and with foreign keys enabled and no incoming
rows, the `outgoing` header flag is `False if fki else True`, so both
`outgoing` and its following sibling `incoming` are printed with `└─ `. -/
theorem C2_last_glyph_violation :
    asciiRelChildren "   " argsNone relUsers
      = ["   ├─ columns", "   │  ├─ id: integer NOT NULL", "   │  └─ email: text"] ∧
    asciiFkLines "" [fkDemo] []
      = ["└─ outgoing", "   └─ fk_demo -> t :: FOREIGN KEY (a) REFERENCES t(b)",
         "└─ incoming", "   └─ (none)"] := by
  refine ⟨rfl, rfl⟩

/-- C3: the claim states the exact five text lines of the `app`/`users`
scenario, with `   └─ columns` on the third line.  Evaluating the renderer on
that scenario shows the code instead prints `   ├─ columns` and the `   │  `
continuation prefix before the column lines (the same last-flag slip as C2),
so the claimed output differs at lines three to five. -/
theorem C3_scenario_output :
    print_schema_tree_ascii argsNone schemaApp
      = ["app", "└─ users [table]", "   ├─ columns",
         "   │  ├─ id: integer NOT NULL", "   │  └─ email: text"] := by
  rfl

/-- C4: for a relation whose identifier resolution returns no row, the text
renderer emits `(rel not found)` with the last-branch glyph as the relation's
only child; the document renderer emits exactly name, kind, the `error` key
with value `rel not found`, and the closing of the relation object — no
`columns` key and no optional-group key; and the walk continues: in both
renderers the relations following the failing one still contribute their
output (the enumerated table loop decomposes around the failing relation). -/
theorem C4_rel_not_found (args : Args) (rel : RelationData) (lvl1 : String)
    (h : rel.reloid = none) :
    asciiRelChildren lvl1 args rel = [_branch lvl1 true ++ "(rel not found)"] ∧
    jsonRelEvents args rel
      = [.beginObj, .key "name", .value (.prim (.str rel.name)),
         .key "kind", .value (.prim (.str (RELKIND_LABEL rel.relkind))),
         .key "error", .value (.prim (.str "rel not found")), .endObj] ∧
    keysOf (jsonRelEvents args rel) = ["name", "kind", "error"] ∧
    (∀ s : SchemaData, ∀ pre post, s.tables = pre ++ rel :: post →
      ∃ a b, jsonSchemaEvents args s
        = a ++ (post.map (jsonRelEvents args)).flatten ++ b) ∧
    (∀ (f : Nat → RelationData → List String) (pre post : List RelationData) (i : Nat),
      enumBlocks f i (pre ++ rel :: post)
        = enumBlocks f i pre ++ f (i + pre.length) rel
          ++ enumBlocks f (i + pre.length + 1) post) := by
  refine ⟨?_, ?_, ?_, ?_, ?_⟩
  · simp [asciiRelChildren, h]
  · simp [jsonRelEvents, h]
  · simp [jsonRelEvents, h, keysOf, List.filterMap_cons]
  · intro s pre post hs
    refine ⟨[JEvent.beginObj, .key "name", .value (.prim (.str s.name))]
            ++ (if args.include_funcs then
                  [JEvent.key "functions", .beginArr]
                  ++ s.funcs.map (fun f => JEvent.item (jsonFuncItem f))
                  ++ [JEvent.endArr]
                else [])
            ++ ([JEvent.key "relations", .beginArr]
                ++ (pre.map (jsonRelEvents args)).flatten
                ++ jsonRelEvents args rel),
            [JEvent.endArr, .endObj], ?_⟩
    simp [jsonSchemaEvents, hs, List.map_append, List.flatten_append,
      List.append_assoc]
  · intro f pre post i
    exact enumBlocks_split f pre post rel i

/-- C4 witness: the theorem applied to the concrete vanished relation
`ghost`. -/
theorem C4_rel_not_found_witness :
    relGone.reloid = none ∧
    asciiRelChildren "   " argsNone relGone = ["   └─ (rel not found)"] :=
  ⟨rfl, by rw [(C4_rel_not_found argsNone relGone "   " rfl).1]; rfl⟩

/-- C5: with foreign keys enabled, every resolvable relation gets the
`foreign_keys` container with both the `outgoing` and the `incoming`
sub-group in both renderers; an empty incoming set is an empty array in the
document form and a single `(none)` leaf under the `incoming` header in the
text form, and symmetrically for an empty outgoing set. -/
theorem C5_fk_both_groups (args : Args) (rel : RelationData) (o : Nat) (lvl1 gp : String)
    (hfk : args.include_fkeys = true) (hres : rel.reloid = some o) :
    (∃ a b, jsonRelEvents args rel = a ++ jsonFkEvents rel.fko rel.fki ++ b) ∧
    GroupData.fkeys rel.fko rel.fki ∈ enabledGroups args rel ∧
    (∀ bl, asciiGroupBlock lvl1 bl (GroupData.fkeys rel.fko rel.fki)
        = (_branch lvl1 bl ++ "foreign_keys")
          :: asciiFkLines (_childPfx lvl1 bl) rel.fko rel.fki) ∧
    (∃ bl, (_branch lvl1 bl ++ "foreign_keys") ∈ asciiRelChildren lvl1 args rel) ∧
    (_branch gp rel.fki.isEmpty ++ "outgoing") ∈ asciiFkLines gp rel.fko rel.fki ∧
    (_branch gp true ++ "incoming") ∈ asciiFkLines gp rel.fko rel.fki ∧
    (rel.fki = [] →
      jsonFkEvents rel.fko rel.fki
        = [.key "foreign_keys", .beginObj, .key "outgoing", .beginArr]
          ++ rel.fko.map (fun r => JEvent.item (jsonFkOutItem r))
          ++ [.endArr, .key "incoming", .beginArr, .endArr, .endObj]) ∧
    (rel.fki = [] → ∃ pre,
      asciiFkLines gp rel.fko rel.fki
        = pre ++ [_branch gp true ++ "incoming",
                  _branch (_childPfx gp true) true ++ "(none)"]) ∧
    (rel.fko = [] →
      jsonFkEvents rel.fko rel.fki
        = [.key "foreign_keys", .beginObj, .key "outgoing", .beginArr,
           .endArr, .key "incoming", .beginArr]
          ++ rel.fki.map (fun r => JEvent.item (jsonFkInItem r))
          ++ [.endArr, .endObj]) ∧
    (rel.fko = [] → ∃ post,
      asciiFkLines gp rel.fko rel.fki
        = (_branch gp rel.fki.isEmpty ++ "outgoing")
          :: (_branch (_childPfx gp rel.fki.isEmpty) true ++ "(none)")
          :: post) := by
  refine ⟨?_, ?_, ?_, ?_, ?_, ?_, ?_, ?_, ?_, ?_⟩
  · refine ⟨[JEvent.beginObj, .key "name", .value (.prim (.str rel.name)),
             .key "kind", .value (.prim (.str (RELKIND_LABEL rel.relkind)))]
            ++ ([JEvent.key "columns", .beginArr]
                ++ rel.cols.map (fun c => JEvent.item (.obj (jsonColumnEntry c)))
                ++ [JEvent.endArr])
            ++ (if args.include_indexes then
                  [JEvent.key "indexes", .beginArr]
                  ++ rel.idxs.map (fun r => JEvent.item (jsonIndexItem r))
                  ++ [JEvent.endArr]
                else []),
            (if args.include_triggers then
               [JEvent.key "triggers", .beginArr]
               ++ rel.trgs.map (fun r => JEvent.item (jsonTriggerItem r))
               ++ [JEvent.endArr]
             else []) ++ [JEvent.endObj], ?_⟩
    simp [jsonRelEvents, hres, hfk, List.append_assoc]
  · simp [enabledGroups, hfk]
  · intro bl; rfl
  · cases hi : args.include_indexes <;> cases htr : args.include_triggers
    · exact ⟨true, by
        simp [asciiRelChildren, hres, enabledGroups, hfk, hi, htr, enumBlocks,
          asciiGroupBlock, GroupData.gname]⟩
    · exact ⟨false, by
        simp [asciiRelChildren, hres, enabledGroups, hfk, hi, htr, enumBlocks,
          asciiGroupBlock, GroupData.gname]⟩
    · exact ⟨true, by
        simp [asciiRelChildren, hres, enabledGroups, hfk, hi, htr, enumBlocks,
          asciiGroupBlock, GroupData.gname]⟩
    · exact ⟨false, by
        simp [asciiRelChildren, hres, enabledGroups, hfk, hi, htr, enumBlocks,
          asciiGroupBlock, GroupData.gname]⟩
  · simp [asciiFkLines]
  · simp [asciiFkLines]
  · intro hki; simp [jsonFkEvents, hki]
  · intro hki
    refine ⟨(_branch gp true ++ "outgoing")
            :: (if rel.fko.isEmpty then
                  [_branch (_childPfx gp true) true ++ "(none)"]
                else
                  enumLines (fun i r =>
                    _branch (_childPfx gp true) (i == rel.fko.length - 1)
                    ++ r.name ++ " -> " ++ r.table ++ " :: " ++ normalizeWs r.defn)
                    0 rel.fko), ?_⟩
    simp [asciiFkLines, hki]
  · intro hko; simp [jsonFkEvents, hko]
  · intro hko
    refine ⟨(_branch gp true ++ "incoming")
            :: (if rel.fki.isEmpty then
                  [_branch (_childPfx gp true) true ++ "(none)"]
                else
                  enumLines (fun i r =>
                    _branch (_childPfx gp true) (i == rel.fki.length - 1)
                    ++ r.name ++ " <- " ++ r.table ++ " :: " ++ normalizeWs r.defn)
                    0 rel.fki), ?_⟩
    simp [asciiFkLines, hko]

/-- C5 witness: the theorem applied to the `orders` relation, which has one
outgoing and no incoming foreign key, with only foreign keys enabled. -/
theorem C5_fk_both_groups_witness :
    argsFk.include_fkeys = true ∧ relOrders.reloid = some 7 ∧
    (∃ a b, jsonRelEvents argsFk relOrders
        = a ++ jsonFkEvents relOrders.fko relOrders.fki ++ b) :=
  ⟨rfl, rfl, (C5_fk_both_groups argsFk relOrders 7 "" "" rfl rfl).1⟩

/-- C6: for every resolvable relation the `columns` group comes first and is
always present (the document object's key order is name, kind, columns, then
the enabled optional groups; the text children start with the `columns`
header), and the enabled optional groups follow in the fixed order
indexes → foreign_keys → triggers for every flag combination. -/
theorem C6_columns_first_fixed_order (args : Args) (rel : RelationData) (o : Nat)
    (lvl1 : String) (hres : rel.reloid = some o) :
    keysOf (jsonRelEvents args rel)
      = ["name", "kind", "columns"]
        ++ (if args.include_indexes then ["indexes"] else [])
        ++ (if args.include_fkeys then ["foreign_keys", "outgoing", "incoming"] else [])
        ++ (if args.include_triggers then ["triggers"] else []) ∧
    (∃ rest, asciiRelChildren lvl1 args rel
        = (_branch lvl1 (asciiColsLast args rel.cols) ++ "columns") :: rest) ∧
    (enabledGroups args rel).map GroupData.gname
      = (if args.include_indexes then ["indexes"] else [])
        ++ (if args.include_fkeys then ["foreign_keys"] else [])
        ++ (if args.include_triggers then ["triggers"] else []) := by
  refine ⟨?_, ?_, ?_⟩
  · cases hi : args.include_indexes <;> cases hf : args.include_fkeys <;>
      cases ht : args.include_triggers <;>
      simp [jsonRelEvents, hres, hi, hf, ht, jsonFkEvents, keysOf_append,
        keysOf_cons_key, keysOf_cons_beginObj, keysOf_cons_endObj,
        keysOf_cons_beginArr, keysOf_cons_endArr, keysOf_cons_value,
        keysOf_cons_item, keysOf_map_item, keysOf_nil]
  · refine ⟨?_, ?_⟩
    · exact enumLines (fun i c =>
        _branch (_childPfx lvl1 (asciiColsLast args rel.cols))
          (i == rel.cols.length - 1) ++ asciiColumnText c) 0 rel.cols
        ++ enumBlocks (fun i g =>
            asciiGroupBlock lvl1 (i == (enabledGroups args rel).length - 1) g)
            0 (enabledGroups args rel)
    · simp [asciiRelChildren, hres]
  · cases hi : args.include_indexes <;> cases hf : args.include_fkeys <;>
      cases ht : args.include_triggers <;>
      simp [enabledGroups, hi, hf, ht, GroupData.gname]

/-- C6 witness: the theorem applied to the `users` relation with no optional
groups enabled: the document keys are exactly name, kind, columns. -/
theorem C6_columns_first_fixed_order_witness :
    relUsers.reloid = some 1 ∧
    keysOf (jsonRelEvents argsNone relUsers) = ["name", "kind", "columns"] := by
  refine ⟨rfl, ?_⟩
  have h := (C6_columns_first_fixed_order argsNone relUsers 1 "" rfl).1
  simpa [argsNone] using h

/-- C7: every index, foreign-key and trigger definition is rendered through
`normalizeWs` in both renderers (the stated equalities are the rendering
functions themselves), and for every input string the `normalizeWs` result
has all whitespace runs collapsed to single spaces: every whitespace
character of the output is a plain space and no two are adjacent
(`collapsedB`). -/
theorem C7_whitespace_collapsed :
    (∀ s : String, collapsedB (normalizeWs s).data = true) ∧
    (∀ gp b r, asciiIndexLine gp b r
        = _branch gp b ++ r.name ++ indexTagStr r.ispk r.isuniq r.isinvalid
          ++ " :: " ++ normalizeWs r.defn) ∧
    (∀ gp b r, asciiTriggerLine gp b r
        = _branch gp b ++ r.name ++ triggerFuncTag r.funcName
          ++ " :: " ++ normalizeWs r.defn) ∧
    (∀ r : IndexRow, jsonIndexItem r
        = .obj [("name", .str r.name), ("primary", .bool r.ispk),
                ("unique", .bool r.isuniq), ("invalid", .bool r.isinvalid),
                ("definition", .str (normalizeWs r.defn))]) ∧
    (∀ r : FkRow, jsonFkOutItem r
        = .obj [("name", .str r.name), ("ref_table", .str r.table),
                ("definition", .str (normalizeWs r.defn))]) ∧
    (∀ r : FkRow, jsonFkInItem r
        = .obj [("name", .str r.name), ("src_table", .str r.table),
                ("definition", .str (normalizeWs r.defn))]) ∧
    (∀ r : TriggerRow, jsonTriggerItem r
        = .obj [("name", .str r.name),
                ("function", match r.funcName with | some f => .str f | none => .null),
                ("definition", .str (normalizeWs r.defn))]) := by
  refine ⟨?_, fun _ _ _ => rfl, fun _ _ _ => rfl, fun _ => rfl, fun _ => rfl,
    fun _ => rfl, fun _ => rfl⟩
  intro s
  exact collapsedB_joinWords (wordsAux s.data []) (wordsAux_sound s.data [] (by simp))

/-- C8: in the text renderer's index line, `PK` is tagged iff is-primary,
`UNIQ` iff is-unique and not is-primary, `INVALID` iff is-invalid, and the
bracketed tag list is absent exactly when all three conditions fail; the
index line carries `indexTagStr` in that position. -/
theorem C8_index_tag_conditions :
    (∀ pk uq inv : Bool,
      (("PK" ∈ indexTags pk uq inv) ↔ pk = true) ∧
      (("UNIQ" ∈ indexTags pk uq inv) ↔ (uq = true ∧ pk = false)) ∧
      (("INVALID" ∈ indexTags pk uq inv) ↔ inv = true) ∧
      (indexTagStr pk uq inv = "" ↔ (pk = false ∧ uq = false ∧ inv = false))) ∧
    (∀ gp b r, asciiIndexLine gp b r
        = _branch gp b ++ r.name ++ indexTagStr r.ispk r.isuniq r.isinvalid
          ++ " :: " ++ normalizeWs r.defn) :=
  ⟨by decide, fun _ _ _ => rfl⟩

/-- C9: `extract_default_func_name` is a pure total function on an optional
string; it returns `none` on `None` and on the empty string, and whenever it
returns `none` the column rendering in both forms omits the derived
function-name field entirely: the document entry has no `default_func` key
(and hence no null) and the text parts carry no `[func: ...]` part. -/
theorem C9_default_func_total_omitted (c : ColumnRow)
    (h : extract_default_func_name c.defaultExpr = none) :
    extract_default_func_name none = none ∧
    extract_default_func_name (some "") = none ∧
    "default_func" ∉ (jsonColumnEntry c).map Prod.fst ∧
    asciiColumnParts c
      = [c.name ++ ": " ++ c.dtype]
        ++ (if c.notnull then ["NOT NULL"] else [])
        ++ (match c.defaultExpr with
            | some d => if d = "" then [] else ["DEFAULT " ++ d]
            | none => []) ∧
    jsonColumnEntry c
      = [("name", .str c.name), ("type", .str c.dtype), ("not_null", .bool c.notnull)]
        ++ (match c.defaultExpr with
            | some d => if d = "" then [] else [("default", JPrim.str d)]
            | none => []) := by
  refine ⟨rfl, rfl, ?_, ?_, ?_⟩
  · cases hd : c.defaultExpr with
    | none => simp [jsonColumnEntry, hd]
    | some d =>
      rw [hd] at h
      by_cases hde : d = ""
      · simp [jsonColumnEntry, hd, hde]
      · simp [jsonColumnEntry, hd, hde, h]
  · cases hd : c.defaultExpr with
    | none => simp [asciiColumnParts, hd]
    | some d =>
      rw [hd] at h
      by_cases hde : d = ""
      · simp [asciiColumnParts, hd, hde]
      · simp [asciiColumnParts, hd, hde, h]
  · cases hd : c.defaultExpr with
    | none => simp [jsonColumnEntry, hd]
    | some d =>
      rw [hd] at h
      by_cases hde : d = ""
      · simp [jsonColumnEntry, hd, hde]
      · simp [jsonColumnEntry, hd, hde, h]

/-- C9 witness: the malformed default expression `42` yields no function
name, and the concrete column entry omits the `default_func` key. -/
theorem C9_default_func_total_omitted_witness :
    extract_default_func_name (some "42") = none ∧
    "default_func" ∉ (jsonColumnEntry ⟨"id", "integer", true, some "42"⟩).map Prod.fst :=
  ⟨by decide,
   (C9_default_func_total_omitted ⟨"id", "integer", true, some "42"⟩ (by decide)).2.2.1⟩

/-- C10: a relation kind outside the five recognized codes gets the fallback
label `[rel]` in both renderers: the `RELKIND_LABEL` lookup defaults to it,
the text header line ends in ` [rel]`, and the document's `kind` value is
`"[rel]"`. -/
theorem C10_relkind_fallback (args : Args) (rel : RelationData) (b : Bool)
    (h1 : rel.relkind ≠ "r") (h2 : rel.relkind ≠ "p") (h3 : rel.relkind ≠ "v")
    (h4 : rel.relkind ≠ "m") (h5 : rel.relkind ≠ "f") :
    RELKIND_LABEL rel.relkind = "[rel]" ∧
    (asciiTableBlock args b rel).head?
      = some (_branch "" b ++ rel.name ++ " " ++ "[rel]") ∧
    (jsonRelEvents args rel).take 5
      = [.beginObj, .key "name", .value (.prim (.str rel.name)),
         .key "kind", .value (.prim (.str "[rel]"))] := by
  have hl : RELKIND_LABEL rel.relkind = "[rel]" := by
    simp [RELKIND_LABEL, h1, h2, h3, h4, h5]
  refine ⟨hl, ?_, ?_⟩
  · simp [asciiTableBlock, hl]
  · simp [jsonRelEvents, hl]

/-- C10 witness: the theorem applied to a relation of kind `S` (a sequence,
unrecognized by the label table). -/
theorem C10_relkind_fallback_witness :
    RELKIND_LABEL (RelationData.relkind ⟨"seq1", "S", some 3, [], [], [], [], []⟩)
      = "[rel]" :=
  (C10_relkind_fallback argsNone ⟨"seq1", "S", some 3, [], [], [], [], []⟩ true
    (by decide) (by decide) (by decide) (by decide) (by decide)).1
